import Mathlib

/-!
Shallow embedding of the caddy-knownagents middleware (Go sources: the
Knownagents module file and its Darkvisitors near-duplicate). The module
parses a Caddyfile block into a settings value, provisions it (placeholder
substitution on the access token, disallow default, one-time robots.txt
fetch), validates agent-type labels against a fixed catalog, and on each
request sets a variable, delegates to the next handler and, on success,
sends one sanitized visit event to the analytics endpoint.

External collaborators (the caddyfile dispenser, the caddy placeholder
replacer, outbound HTTP) are modelled at their interface: the dispenser as
the token structure it yields for each subdirective line, the replacer as a
lookup function over placeholder keys, and each outbound call as an
`Except`-valued outcome parameter.
-/

namespace CaddyKnownagents

/-- AgentTypes are groups of agent classified by the Known Agents API.
(Go: `type AgentType = string`.) -/
abbrev AgentType := String

def AIAssistant : AgentType := "AI Assistant"

def AIDataScraper : AgentType := "AI Data Scraper"

def AISearchCrawler : AgentType := "AI Search Crawler"

def Archiver : AgentType := "Archiver"

def DeveloperHelper : AgentType := "Developer Helper"

def Fetcher : AgentType := "Fetcher"

def HeadlessBrowser : AgentType := "Headless Browser"

def IntelligenceGatherer : AgentType := "Intelligence Gatherer"

def Scraper : AgentType := "Scraper"

def SearchEngineCrawlers : AgentType := "Search Engine Crawler"

def SEOCrawler : AgentType := "SEO Crawler"

def Uncategorized : AgentType := "Uncategorized"

def UndocumentedAIAgent : AgentType := "Undocumented AI Agent"

/-- allAgentTypes is the list of all documented Known Agents agent types,
in source order. -/
def allAgentTypes : List AgentType :=
  [AIAssistant, AIDataScraper, AISearchCrawler, Archiver, DeveloperHelper,
   Fetcher, HeadlessBrowser, IntelligenceGatherer, Scraper,
   SearchEngineCrawlers, SEOCrawler, Uncategorized, UndocumentedAIAgent]

/-- RobotsTxt configures automated generation of robots.txt.
Fields mirror the Go struct: `AgentTypes []AgentType`, `Disallow string`
and the unexported cached `text string`. -/
structure RobotsTxt where
  AgentTypes : List AgentType
  Disallow : String
  text : String
deriving Repr, DecidableEq

/-- The zero value `new(RobotsTxt)` allocated by the Caddyfile parser. -/
def RobotsTxt.zero : RobotsTxt := ⟨[], "", ""⟩

/-- The Knownagents middleware settings: `AccessToken string` and the
optional `RobotsTxt *RobotsTxt` (a nil pointer is `none`). The logger
field carries no observable state and is not modelled. -/
structure Knownagents where
  AccessToken : String
  RobotsTxt : Option RobotsTxt
deriving Repr, DecidableEq

/-- The zero value of the module, as built by `parseCaddyfile`. -/
def Knownagents.zero : Knownagents := ⟨"", none⟩

/-! ## Caddyfile parsing

The external dispenser walks the directive's block; for each subdirective
line it yields the name token (`d.Val()`) and the argument tokens on the
same line (successive `d.NextArg()`), and for `robots_txt` the nested
block's lines. We embed that interface as one constructor per recognized
name plus a catch-all for any other token, and translate the repository's
switch bodies over it. Argument tokens beyond the ones the switch body
consumes on a recognized line are dispenser mechanics outside this
embedding; theorems quantifying over such lines carry the well-formed
argument-count shape as a hypothesis. -/

/-- One subdirective line inside a `robots_txt` block: its name token and
the argument tokens following it on the same line. -/
inductive RtEntry where
  | agentTypes (args : List String)
  | disallow (args : List String)
  | unknown (name : String)
deriving Repr, DecidableEq

/-- One subdirective inside the `knownagents` block: either a line with
its same-line argument tokens, a `robots_txt` nested block with its lines,
or any other name token. -/
inductive KaEntry where
  | accessToken (args : List String)
  | robotsTxt (entries : List RtEntry)
  | unrecognized (name : String)
deriving Repr, DecidableEq

/-- The token structure the dispenser yields for one `knownagents`
directive: the block's subdirectives and any stray argument tokens left on
the directive's own line after the block (checked by the final
`d.NextArg()`). -/
structure KaConfig where
  entries : List KaEntry
  trailing : List String
deriving Repr, DecidableEq

/-- The message `d.ArgErr()` produces when a required argument is missing
after token `name`. -/
def argErr (name : String) : String :=
  "wrong argument count or unexpected line ending after \x27" ++ name ++ "\x27"

/-- Body of the inner `switch d.Val()` for one line of the `robots_txt`
block (source: the `agent_types` / `disallow` / default cases). -/
def parseRtEntry (rt : RobotsTxt) : RtEntry → Except String RobotsTxt
  | .agentTypes args =>
    match args with
    | [] => .error (argErr "agent_types")
    | first :: rest =>
      if first = "*" then
        match rest with
        | [] => .ok { rt with AgentTypes := allAgentTypes }
        | extra :: _ => .error ("unexpected argument \x27" ++ extra ++ "\x27")
      else
        .ok { rt with AgentTypes := rt.AgentTypes ++ (first :: rest) }
  | .disallow args =>
    match args with
    | [] => .error (argErr "disallow")
    | v :: _ => .ok { rt with Disallow := v }
  | .unknown name =>
    .error ("unknown subdirective \x27" ++ name ++ "\x27")

/-- The inner `for d.NextBlock` loop over a `robots_txt` block's lines. -/
def parseRtBlock (rt : RobotsTxt) : List RtEntry → Except String RobotsTxt
  | [] => .ok rt
  | e :: es =>
    match parseRtEntry rt e with
    | .error msg => .error msg
    | .ok rt1 => parseRtBlock rt1 es

/-- Body of the outer `switch d.Val()` for one subdirective of the
`knownagents` block (source: the `robots_txt` / `access_token` / default
cases). -/
def parseKaEntry (m : Knownagents) : KaEntry → Except String Knownagents
  | .robotsTxt entries =>
    match m.RobotsTxt with
    | some _ => .error "robots_txt is already configured"
    | none =>
      match parseRtBlock RobotsTxt.zero entries with
      | .error msg => .error msg
      | .ok rt => .ok { m with RobotsTxt := some rt }
  | .accessToken args =>
    match args with
    | [] => .error (argErr "access_token")
    | v :: _ => .ok { m with AccessToken := v }
  | .unrecognized name =>
    .error ("unrecognized subdirective \x27" ++ name ++ "\x27")

/-- The outer `for d.NextBlock` loop of `UnmarshalCaddyfile`. -/
def parseEntries (m : Knownagents) : List KaEntry → Except String Knownagents
  | [] => .ok m
  | e :: es =>
    match parseKaEntry m e with
    | .error msg => .error msg
    | .ok m1 => parseEntries m1 es

/-- `Knownagents.UnmarshalCaddyfile` on a fresh module value (as invoked by
`parseCaddyfile`): run the block loop, reject trailing arguments, then the
post-parse checks for a missing access token and missing agent type
filters. -/
def UnmarshalCaddyfile (cfg : KaConfig) : Except String Knownagents :=
  match parseEntries Knownagents.zero cfg.entries with
  | .error msg => .error msg
  | .ok m =>
    match cfg.trailing with
    | t :: _ => .error ("unexpected argument \x27" ++ t ++ "\x27")
    | [] =>
      if m.AccessToken = "" then .error "missing access token"
      else
        match m.RobotsTxt with
        | some rt =>
          if rt.AgentTypes = [] then .error "missing agent type filters"
          else .ok m
        | none => .ok m

/-! ## Placeholder substitution (caddy.Replacer, external collaborator)

`repl.ReplaceAll(input, "")` replaces every placeholder `\x7bkey\x7d` in the
input by the value the replacer's providers resolve `key` to, or by the
empty fallback when `key` is unresolvable; it never fails. We embed the
providers as a `lookup` function and scan the string with fuel equal to
its length (each step consumes at least one character, so the fuel never
runs out on the initial call). -/

def lbrace : Char := Char.ofNat 123

def rbrace : Char := Char.ofNat 125

/-- Scan up to the closing brace: `some (key, rest)` splits off the
placeholder key and the characters after the closing brace; `none` means
no closing brace follows. -/
def spanKey : List Char → Option (List Char × List Char)
  | [] => none
  | c :: cs =>
    if c = rbrace then some ([], cs)
    else
      match spanKey cs with
      | some (k, rest) => some (c :: k, rest)
      | none => none

/-- One pass of the replacer over the character list, fuelled. -/
def replaceChars (lookup : String → Option String) (empty : String) :
    Nat → List Char → List Char
  | 0, rest => rest
  | _ + 1, [] => []
  | fuel + 1, c :: cs =>
    if c = lbrace then
      match spanKey cs with
      | some (k, rest) =>
        ((lookup (String.mk k)).getD empty).data ++
          replaceChars lookup empty fuel rest
      | none => c :: replaceChars lookup empty fuel cs
    else c :: replaceChars lookup empty fuel cs

/-- `caddy.Replacer.ReplaceAll input empty`. -/
def replaceAll (lookup : String → Option String) (empty : String)
    (s : String) : String :=
  String.mk (replaceChars lookup empty s.data.length s.data)

/-! ## Provision -/

/-- `Knownagents.Provision`: substitute placeholders in the access token
with empty fallback, then, when a robots.txt policy is configured, default
the disallow path to "/" when empty and perform the one-time fetch, whose
outbound outcome (transport error or response body) is the `fetch`
parameter; a fetch error aborts provisioning, success caches the body
verbatim. -/
def Provision (lookup : String → Option String)
    (fetch : Except String String) (m : Knownagents) :
    Except String Knownagents :=
  let m1 : Knownagents :=
    { m with AccessToken := replaceAll lookup "" m.AccessToken }
  match m1.RobotsTxt with
  | none => .ok m1
  | some rt =>
    let rt1 := if rt.Disallow = "" then { rt with Disallow := "/" } else rt
    match fetch with
    | .error msg => .error msg
    | .ok body => .ok { m1 with RobotsTxt := some { rt1 with text := body } }

/-! ## Validate -/

/-- The `for _, at := range m.RobotsTxt.AgentTypes` loop of `Validate`:
the first label outside the catalog is reported. -/
def validateAgents : List AgentType → Except String Unit
  | [] => .ok ()
  | a :: rest =>
    if allAgentTypes.contains a then validateAgents rest
    else .error ("unrecognized agent type \x27" ++ a ++ "\x27")

/-- `Knownagents.Validate`: with no robots.txt policy nothing is checked;
otherwise every configured agent type must belong to the catalog. -/
def Validate (m : Knownagents) : Except String Unit :=
  match m.RobotsTxt with
  | none => .ok ()
  | some rt => validateAgents rt.AgentTypes

/-! ## ServeHTTP

The handler's observable behaviour per request is a trace of events (the
`SetVar` call, the delegation to the next handler, the analytics report
POST) together with the returned error. The next handler's outcome is the
`nextResult` parameter (`some e` = it returned error `e`). Go
`http.Header` is a map from header names to value lists, embedded as an
association list; `Header.Clone` copies it and `Del "Cookie"` removes the
entry with that (already canonical) key. -/

/-- An HTTP request's fields the handler reads: `r.Header`, `r.URL.Path`,
`r.Method`. -/
structure Request where
  headers : List (String × List String)
  urlPath : String
  method : String
deriving Repr, DecidableEq

/-- `Header.Del key` on the cloned map: drops the entry stored under the
exact key (the call site passes the canonical name "Cookie"). -/
def headerDel (h : List (String × List String)) (key : String) :
    List (String × List String) :=
  h.filter (fun p => p.1 ≠ key)

/-- The visit event payload: `request_path`, `request_method`,
`request_headers`. -/
structure VisitEvent where
  request_path : String
  request_method : String
  request_headers : List (String × List String)
deriving Repr, DecidableEq

/-- One observable step of the handler. -/
inductive Event where
  | setVar (key value : String)
  | nextInvoked
  | report (v : VisitEvent)
deriving Repr, DecidableEq

/-- The visit event built by the reporting goroutine: the cloned headers
with the "Cookie" entry deleted, the request's path and method. -/
def mkVisitEvent (r : Request) : VisitEvent :=
  { request_path := r.urlPath
    request_method := r.method
    request_headers := headerDel r.headers "Cookie" }

/-- `Knownagents.ServeHTTP`: when a robots.txt policy is configured, set
the `ka_robots_txt` variable to the cached text; invoke the next handler;
if it errored, return that error (no report); otherwise build and send
exactly one visit event and return no error. -/
def serveHTTP (m : Knownagents) (r : Request) (nextResult : Option String) :
    List Event × Option String :=
  let pre : List Event :=
    match m.RobotsTxt with
    | some rt => [.setVar "ka_robots_txt" rt.text]
    | none => []
  match nextResult with
  | some e => (pre ++ [.nextInvoked], some e)
  | none => (pre ++ [.nextInvoked, .report (mkVisitEvent r)], none)

/-- The analytics reports occurring in a trace, in order. -/
def reportsOf (tr : List Event) : List VisitEvent :=
  tr.filterMap fun e =>
    match e with
    | .report v => some v
    | _ => none

/-! ## Theorems -/

/-- C1: For every request where the delegated (next) handler returns an
error, ServeHTTP propagates that error verbatim to the caller and sends no
analytics report (no visit event is constructed or transmitted). -/
theorem serveHTTP_error_no_report (m : Knownagents) (r : Request)
    (e : String) :
    (serveHTTP m r (some e)).2 = some e ∧
      reportsOf (serveHTTP m r (some e)).1 = [] := by
  cases hm : m.RobotsTxt <;> simp [serveHTTP, hm, reportsOf]

/-- C2: For every request where the delegated handler succeeds, exactly one
analytics report is built and sent; its request_headers map is the original
request's headers with the cookie/session header (the entry under the
"Cookie" key, which carries cookies and session identifiers) removed, and
its request_path and request_method equal the original request's path and
method. -/
theorem serveHTTP_ok_single_sanitized_report (m : Knownagents)
    (r : Request) :
    (serveHTTP m r none).2 = none ∧
      reportsOf (serveHTTP m r none).1 =
        [{ request_path := r.urlPath
           request_method := r.method
           request_headers := headerDel r.headers "Cookie" }] := by
  cases hm : m.RobotsTxt <;>
    simp [serveHTTP, hm, reportsOf, mkVisitEvent]

/-- C7: For every request handled when a robots.txt policy is configured,
ServeHTTP publishes the cached robots.txt text into the request-scoped
variable namespace strictly before invoking the delegated handler; when no
policy is configured, no such variable is set. -/
theorem setVar_before_next (m : Knownagents) (r : Request)
    (ne : Option String) :
    (∀ rt, m.RobotsTxt = some rt →
      ∃ t, (serveHTTP m r ne).1 =
        Event.setVar "ka_robots_txt" rt.text :: Event.nextInvoked :: t) ∧
    (m.RobotsTxt = none →
      ∀ k v, Event.setVar k v ∉ (serveHTTP m r ne).1) := by
  constructor
  · intro rt hrt
    cases ne with
    | none =>
      exact ⟨[Event.report (mkVisitEvent r)], by simp [serveHTTP, hrt]⟩
    | some e =>
      exact ⟨[], by simp [serveHTTP, hrt]⟩
  · intro h k v
    cases ne <;> simp [serveHTTP, h]

theorem setVar_before_next_witness :
    ∃ t, (serveHTTP ⟨"tok", some ⟨["AI Assistant"], "/", "cached"⟩⟩
        ⟨[], "/robots.txt", "GET"⟩ none).1 =
      Event.setVar "ka_robots_txt" "cached" :: Event.nextInvoked :: t :=
  (setVar_before_next ⟨"tok", some ⟨["AI Assistant"], "/", "cached"⟩⟩
    ⟨[], "/robots.txt", "GET"⟩ none).1 ⟨["AI Assistant"], "/", "cached"⟩ rfl

/-- C4: Parsing `agent_types *` inside a robots_txt block yields
agent_types equal to the full fixed catalog of known agent-type labels, and
parsing fails with an "unexpected argument" error if any further argument
follows the wildcard. -/
theorem agentTypes_wildcard_full_catalog (pre : RobotsTxt) (extra : String)
    (rest : List String) :
    parseRtEntry pre (.agentTypes ["*"]) =
      .ok { pre with AgentTypes := allAgentTypes } ∧
    parseRtEntry pre (.agentTypes ("*" :: extra :: rest)) =
      .error ("unexpected argument \x27" ++ extra ++ "\x27") ∧
    UnmarshalCaddyfile ⟨[.accessToken ["tok"],
        .robotsTxt [.agentTypes ["*"]]], []⟩ =
      .ok ⟨"tok", some ⟨allAgentTypes, "", ""⟩⟩ :=
  ⟨by simp [parseRtEntry], by simp [parseRtEntry], rfl⟩

/-- The agent-type loop accepts a list exactly when every label belongs to
the catalog. -/
theorem validateAgents_ok_iff (l : List AgentType) :
    validateAgents l = .ok () ↔ ∀ a ∈ l, a ∈ allAgentTypes := by
  induction l with
  | nil => simp [validateAgents]
  | cons a rest ih =>
    by_cases h : allAgentTypes.contains a
    · have ha : a ∈ allAgentTypes := by
        simpa using List.mem_of_elem_eq_true h
      simp [validateAgents, h, ih, ha]
    · have ha : a ∉ allAgentTypes := by
        intro hmem
        exact h (List.elem_eq_true_of_mem hmem)
      simp [validateAgents, h, ha]

/-- An error from the agent-type loop names a configured label that is
outside the catalog. -/
theorem validateAgents_error (l : List AgentType) (msg : String)
    (h : validateAgents l = .error msg) :
    ∃ a, a ∈ l ∧ a ∉ allAgentTypes ∧
      msg = "unrecognized agent type \x27" ++ a ++ "\x27" := by
  induction l with
  | nil => simp [validateAgents] at h
  | cons a rest ih =>
    by_cases hc : allAgentTypes.contains a
    · rw [validateAgents, if_pos hc] at h
      obtain ⟨b, hb1, hb2, hb3⟩ := ih h
      exact ⟨b, List.mem_cons_of_mem a hb1, hb2, hb3⟩
    · rw [validateAgents, if_neg hc] at h
      have ha : a ∉ allAgentTypes := by
        intro hmem
        exact hc (List.elem_eq_true_of_mem hmem)
      refine ⟨a, List.mem_cons_self a rest, ha, ?_⟩
      cases h
      rfl

/-- C6: Validate returns an error naming the exact offending label whenever
the configured agent_types list contains a label outside the fixed catalog,
and returns no error for every list whose labels all belong to the catalog
(individually and in any combination). -/
theorem validate_catalog (m : Knownagents) :
    (Validate m = .ok () ↔
      ∀ rt, m.RobotsTxt = some rt → ∀ a ∈ rt.AgentTypes, a ∈ allAgentTypes) ∧
    (∀ msg, Validate m = .error msg →
      ∃ rt a, m.RobotsTxt = some rt ∧ a ∈ rt.AgentTypes ∧
        a ∉ allAgentTypes ∧
        msg = "unrecognized agent type \x27" ++ a ++ "\x27") := by
  cases hm : m.RobotsTxt with
  | none => simp [Validate, hm]
  | some rt =>
    constructor
    · simp [Validate, hm, validateAgents_ok_iff]
    · intro msg h
      rw [Validate, hm] at h
      obtain ⟨a, ha1, ha2, ha3⟩ := validateAgents_error rt.AgentTypes msg h
      exact ⟨rt, a, rfl, ha1, ha2, ha3⟩

theorem validate_catalog_witness :
    Validate ⟨"tok", some ⟨allAgentTypes, "/", ""⟩⟩ = .ok () := by
  refine (validate_catalog ⟨"tok", some ⟨allAgentTypes, "/", ""⟩⟩).1.mpr ?_
  rintro rt hrt a ha
  cases hrt
  exact ha

/-- C9: The wildcard token "*" is recognized only as the first argument of
agent_types: for every argument list in which "*" appears in a non-first
position, parsing succeeds and appends "*" verbatim as a label, which
subsequent validation then rejects as an unrecognized agent type. -/
theorem wildcard_non_first_verbatim :
    (∀ (pre : RobotsTxt) (first : String) (mid post : List String),
      first ≠ "*" →
      parseRtEntry pre (.agentTypes (first :: (mid ++ "*" :: post))) =
        .ok { pre with
          AgentTypes := pre.AgentTypes ++ (first :: (mid ++ "*" :: post)) }) ∧
    (∀ (m : Knownagents) (rt : RobotsTxt), m.RobotsTxt = some rt →
      "*" ∈ rt.AgentTypes → ∃ msg, Validate m = .error msg) := by
  constructor
  · intro pre first mid post hf
    simp [parseRtEntry, hf]
  · intro m rt hm hmem
    have hstar : ("*" : String) ∉ allAgentTypes := by decide
    cases hv : Validate m with
    | ok u =>
      cases u
      rw [Validate, hm] at hv
      exact absurd ((validateAgents_ok_iff rt.AgentTypes).mp hv "*" hmem)
        hstar
    | error msg => exact ⟨msg, rfl⟩

theorem wildcard_non_first_verbatim_witness :
    parseRtEntry RobotsTxt.zero
        (RtEntry.agentTypes ("AI Assistant" :: ([] ++ "*" :: []))) =
      .ok { RobotsTxt.zero with
        AgentTypes := RobotsTxt.zero.AgentTypes ++
          ("AI Assistant" :: ([] ++ "*" :: [])) } ∧
    (∃ msg, Validate ⟨"tok", some ⟨["AI Assistant", "*"], "/", ""⟩⟩ =
      .error msg) :=
  ⟨wildcard_non_first_verbatim.1 RobotsTxt.zero "AI Assistant" [] []
      (by decide),
   wildcard_non_first_verbatim.2 ⟨"tok", some ⟨["AI Assistant", "*"], "/", ""⟩⟩
      ⟨["AI Assistant", "*"], "/", ""⟩ rfl (by decide)⟩

/-- C10: A second robots_txt block in the same directive makes parsing fail
with a "robots_txt is already configured" error, whereas a repeated
access_token subdirective is accepted and the last value given overwrites
the earlier ones. -/
theorem duplicate_robots_last_token_wins (m m2 : Knownagents)
    (rt0 : RobotsTxt) (es : List RtEntry) (v1 v2 : String)
    (hm : m.RobotsTxt = some rt0) :
    parseKaEntry m (.robotsTxt es) =
      .error "robots_txt is already configured" ∧
    UnmarshalCaddyfile ⟨[.accessToken ["tok"],
        .robotsTxt [.agentTypes ["AI Assistant"]], .robotsTxt es], []⟩ =
      .error "robots_txt is already configured" ∧
    parseEntries m2 [.accessToken [v1], .accessToken [v2]] =
      .ok { m2 with AccessToken := v2 } := by
  refine ⟨by simp [parseKaEntry, hm], ?_, by simp [parseEntries, parseKaEntry]⟩
  simp [UnmarshalCaddyfile, parseEntries, parseKaEntry, parseRtBlock,
    parseRtEntry, Knownagents.zero, RobotsTxt.zero]

theorem duplicate_robots_last_token_wins_witness :
    parseKaEntry ⟨"tok", some RobotsTxt.zero⟩ (KaEntry.robotsTxt []) =
      .error "robots_txt is already configured" ∧
    parseEntries Knownagents.zero
        [KaEntry.accessToken ["first"], KaEntry.accessToken ["second"]] =
      .ok { Knownagents.zero with AccessToken := "second" } :=
  ⟨(duplicate_robots_last_token_wins ⟨"tok", some RobotsTxt.zero⟩
      Knownagents.zero RobotsTxt.zero [] "first" "second" rfl).1,
   (duplicate_robots_last_token_wins ⟨"tok", some RobotsTxt.zero⟩
      Knownagents.zero RobotsTxt.zero [] "first" "second" rfl).2.2⟩

/-- C5: After consuming the whole block (the loop succeeded and no trailing
argument remains), parsing fails with a "missing access token" error
whenever the parsed access_token is the empty string, fails with a
"missing agent type filters" error whenever a robots_txt block was present
but its agent_types list is empty, and otherwise succeeds. -/
theorem post_block_checks (entries : List KaEntry) (m : Knownagents)
    (h : parseEntries Knownagents.zero entries = .ok m) :
    (m.AccessToken = "" →
      UnmarshalCaddyfile ⟨entries, []⟩ = .error "missing access token") ∧
    (∀ rt, m.AccessToken ≠ "" → m.RobotsTxt = some rt →
      rt.AgentTypes = [] →
      UnmarshalCaddyfile ⟨entries, []⟩ =
        .error "missing agent type filters") ∧
    (m.AccessToken ≠ "" →
      (∀ rt, m.RobotsTxt = some rt → rt.AgentTypes ≠ []) →
      UnmarshalCaddyfile ⟨entries, []⟩ = .ok m) := by
  refine ⟨?_, ?_, ?_⟩
  · intro h0
    simp [UnmarshalCaddyfile, h, h0]
  · intro rt hA hR hE
    simp [UnmarshalCaddyfile, h, hA, hR, hE]
  · intro hA hR
    cases hm : m.RobotsTxt with
    | none => simp [UnmarshalCaddyfile, h, hA, hm]
    | some rt => simp [UnmarshalCaddyfile, h, hA, hm, hR rt hm]

theorem post_block_checks_witness :
    UnmarshalCaddyfile ⟨[KaEntry.accessToken ["tok"]], []⟩ =
      .ok ⟨"tok", none⟩ := by
  have h := post_block_checks [KaEntry.accessToken ["tok"]]
    ⟨"tok", none⟩ rfl
  exact h.2.2 (by simp) (by simp)

/-- C3 counterexample: parsing a robots_txt block that lists agent_types
and contains no disallow subdirective yields a settings value whose
disallow path is the empty string, not "/": the parser does not apply the
default. -/
theorem parse_no_disallow_not_slash :
    UnmarshalCaddyfile ⟨[.accessToken ["tok"],
        .robotsTxt [.agentTypes ["AI Assistant", "Archiver"]]], []⟩ =
      .ok ⟨"tok", some ⟨["AI Assistant", "Archiver"], "", ""⟩⟩ ∧
    ("" : String) ≠ "/" :=
  ⟨rfl, by decide⟩

/-- A robots_txt line that is not a disallow line leaves the disallow path
unchanged. -/
theorem parseRtEntry_disallow_of_not (rt rt1 : RobotsTxt) (e : RtEntry)
    (hne : ∀ a, e ≠ RtEntry.disallow a)
    (h : parseRtEntry rt e = .ok rt1) : rt1.Disallow = rt.Disallow := by
  cases e with
  | agentTypes args =>
    cases args with
    | nil => simp [parseRtEntry] at h
    | cons first rest =>
      by_cases hf : first = "*"
      · subst hf
        cases rest with
        | nil =>
          simp [parseRtEntry] at h
          rw [← h]
        | cons e2 r2 => simp [parseRtEntry] at h
      · simp [parseRtEntry, hf] at h
        rw [← h]
  | disallow a => exact absurd rfl (hne a)
  | unknown n => simp [parseRtEntry] at h

/-- A robots_txt block without any disallow line leaves the disallow path
at its initial value. -/
theorem parseRtBlock_disallow_of_not (es : List RtEntry) :
    ∀ rt rt1, (∀ a, RtEntry.disallow a ∉ es) →
      parseRtBlock rt es = .ok rt1 → rt1.Disallow = rt.Disallow := by
  induction es with
  | nil =>
    intro rt rt1 _ h
    simp [parseRtBlock] at h
    rw [← h]
  | cons e rest ih =>
    intro rt rt1 hne h
    rw [parseRtBlock] at h
    cases hp : parseRtEntry rt e with
    | error msg => rw [hp] at h; cases h
    | ok rtm =>
      rw [hp] at h
      have h1 : rtm.Disallow = rt.Disallow :=
        parseRtEntry_disallow_of_not rt rtm e
          (fun a ha => hne a (ha ▸ List.mem_cons_self e rest)) hp
      have h2 : rt1.Disallow = rtm.Disallow :=
        ih rtm rt1 (fun a ha => hne a (List.mem_cons_of_mem e ha)) h
      rw [h2, h1]

/-- C3 amended: parsing a robots_txt block that lists agent_types but
contains no disallow subdirective yields a settings value whose disallow
path is the empty string; the default "/" is applied by Provision, not by
the parser, so after provisioning the disallow path equals "/". -/
theorem no_disallow_empty_then_provision_default (es : List RtEntry)
    (rt : RobotsTxt) (m : Knownagents) (lookup : String → Option String)
    (body : String)
    (hnd : ∀ a, RtEntry.disallow a ∉ es)
    (hp : parseRtBlock RobotsTxt.zero es = .ok rt)
    (hm : m.RobotsTxt = some rt) :
    rt.Disallow = "" ∧
    ∃ m1 rt1, Provision lookup (.ok body) m = .ok m1 ∧
      m1.RobotsTxt = some rt1 ∧ rt1.Disallow = "/" := by
  have hd : rt.Disallow = "" :=
    parseRtBlock_disallow_of_not es RobotsTxt.zero rt hnd hp
  refine ⟨hd, ?_⟩
  simp only [Provision, hm, hd]
  exact ⟨_, _, rfl, rfl, rfl⟩

theorem no_disallow_empty_then_provision_default_witness :
    ((⟨["AI Assistant"], "", ""⟩ : RobotsTxt)).Disallow = "" ∧
    ∃ m1 rt1,
      Provision (fun _ => none) (.ok "generated")
          ⟨"tok", some ⟨["AI Assistant"], "", ""⟩⟩ = .ok m1 ∧
      m1.RobotsTxt = some rt1 ∧ rt1.Disallow = "/" :=
  no_disallow_empty_then_provision_default
    [RtEntry.agentTypes ["AI Assistant"]] ⟨["AI Assistant"], "", ""⟩
    ⟨"tok", some ⟨["AI Assistant"], "", ""⟩⟩ (fun _ => none) "generated"
    (by intro a ha; simp at ha) rfl rfl

/-- C8: Provision applies placeholder substitution to the access token with
the empty string as fallback for unresolvable placeholders and never fails
on the result: with no robots.txt policy it always succeeds, producing the
substituted token; the parser accepts a placeholder-only token (the
non-empty check ran before substitution), and provisioning that token with
a replacer that resolves nothing leaves the module with an empty
AccessToken. -/
theorem provision_placeholder_empty_fallback
    (lookup : String → Option String) (fetch : Except String String)
    (m : Knownagents) (hm : m.RobotsTxt = none) :
    Provision lookup fetch m =
      .ok { m with AccessToken := replaceAll lookup "" m.AccessToken } ∧
    UnmarshalCaddyfile ⟨[.accessToken ["\x7benv.KA_TOKEN\x7d"]], []⟩ =
      .ok ⟨"\x7benv.KA_TOKEN\x7d", none⟩ ∧
    Provision (fun _ => none) fetch ⟨"\x7benv.KA_TOKEN\x7d", none⟩ =
      .ok ⟨"", none⟩ := by
  refine ⟨?_, rfl, rfl⟩
  simp only [Provision, hm]

theorem provision_placeholder_empty_fallback_witness :
    Provision (fun _ => none) (.ok "") ⟨"\x7benv.KA_TOKEN\x7d", none⟩ =
      .ok ⟨"", none⟩ :=
  (provision_placeholder_empty_fallback (fun _ => none) (.ok "")
    ⟨"\x7benv.KA_TOKEN\x7d", none⟩ rfl).2.2

end CaddyKnownagents
